import Mathlib

/-!
Verification of the packit-service worker core against its specification.

The definitions below are a shallow embedding of the Python sources:
  packit_service/worker/handlers/testing_farm.py
  packit_service/worker/events/event.py
and, for the comment parser (whose implementation lives in
packit_service/worker/jobs.py, outside the sources at hand), a model built
from the specification text.

External collaborators (database models, the task queue, the forge client,
the status reporter) are modelled as explicit inputs: lookup functions in an
environment record, and the side effects performed through them are recorded
in explicit output fields, in program order.  Python dictionaries are
modelled as insertion-ordered association lists, Python truthiness of
optional values is made explicit where the source relies on it, and code
paths that would dereference None raise an explicit error value.
-/

namespace PackitService

/-! ## Common vocabulary: task results, commit statuses, dictionaries -/

/-- Result object returned by a job handler: `TaskResults(success=..., details=...)`.
The details dictionary is an insertion-ordered association list; values are
opaque payload strings. -/
structure TaskResults where
  success : Bool
  details : List (String × String)
deriving Repr, DecidableEq

/-- The `BaseCommitStatus` vocabulary used by the status reporter. -/
inductive BaseCommitStatus
  | pending
  | running
  | failure
  | error
  | success
deriving Repr, DecidableEq

/-- Constant `PG_COPR_BUILD_STATUS_SUCCESS` from packit_service/constants.py:
the status string a Copr build row carries once it succeeded. -/
def PG_COPR_BUILD_STATUS_SUCCESS : String := "success"

/-- Dictionary read: `d.get(k)` / `d[k]` on a Python dict modelled as an
insertion-ordered association list. -/
def dictGet (d : List (String × String)) (k : String) : Option String :=
  match d with
  | [] => none
  | p :: rest => if p.1 = k then some p.2 else dictGet rest k

/-- Dictionary write `d[k] = v`: overwrite in place when the key exists,
append otherwise (Python dicts keep insertion order). -/
def dictSet (d : List (String × String)) (k v : String) : List (String × String) :=
  match d with
  | [] => [(k, v)]
  | p :: rest => if p.1 = k then (k, v) :: rest else p :: dictSet rest k v

/-- Dictionary `d.setdefault(k, v)`: returns the updated dictionary and the
value now stored under `k`. -/
def dictSetdefault (d : List (String × String)) (k v : String) :
    List (String × String) × String :=
  match dictGet d k with
  | some w => (d, w)
  | none => (d ++ [(k, v)], v)

/-- Dictionary `d.update(e)`: write every entry of `e` into `d`. -/
def dictUpdate (d e : List (String × String)) : List (String × String) :=
  e.foldl (fun acc p => dictSet acc p.1 p.2) d

/-- A single-quote character, built by code point so that the source file can
render Python repr output without an apostrophe literal. -/
def sq : String := String.singleton (Char.ofNat 39)

/-- Python repr of a string: the text wrapped in single quotes. -/
def pyStrRepr (s : String) : String := sq ++ s ++ sq

/-- Python repr of a list of strings, as an f-string renders it. -/
def pyListRepr (ts : List String) : String :=
  "[" ++ String.intercalate ", " (ts.map pyStrRepr) ++ "]"

/-- Python repr of `d.keys()` for a dict with the given keys. -/
def pyDictKeysRepr (ks : List String) : String :=
  "dict_keys(" ++ pyListRepr ks ++ ")"

/-! ## TestingFarmHandler.run (testing_farm.py lines 96-200)

The handler reconciles the configured test targets against existing Copr
builds: targets lacking a build get a pending notification and one shared
new Copr build task; targets with a successful build get a test submission;
targets whose latest build failed get a failure notification and no test. -/

/-- A Copr build row as the handler consumes it: its database id and status. -/
structure CoprBuild where
  id : Nat
  status : String
deriving Repr, DecidableEq

/-- Result of `TestingFarmJobHelper.run_testing_farm` for one target; the
details payload is opaque to the handler. -/
structure SubTaskResults where
  success : Bool
  details : String
deriving Repr, DecidableEq

/-- One call to `report_status_to_test_for_chroot`. -/
structure ChrootReport where
  state : BaseCommitStatus
  description : String
  url : String
  chroot : String
deriving Repr, DecidableEq

/-- Environment of one `TestingFarmHandler.run` invocation: the handler
fields, the event data it reads, and the external collaborators it calls.
`targets` is `list(testing_farm_helper.tests_targets)`; the source builds it
from a set, so callers always pass a duplicate-free list. -/
structure TFEnv where
  targets : List String
  build_id : Option Nat
  commit_sha : Option String
  get_by_id : Nat → Option CoprBuild
  get_latest_copr_build : String → Option String → Option CoprBuild
  run_testing_farm : CoprBuild → String → SubTaskResults
  get_copr_build_info_url : Nat → String

/-- Everything one run emits, in program order, plus the partition the loop
body computed and the returned `TaskResults`. -/
structure TFRunOutput where
  latest_build_lookups : List (String × Option String)
  targets_with_builds : List (String × CoprBuild)
  targets_without_build : List String
  reports : List ChrootReport
  copr_builds_queued : Nat
  build_signatures : List (List String)
  test_runs_queued : Nat
  test_submissions : List (String × CoprBuild)
  result : TaskResults

/-- Body of the partition loop for one target (testing_farm.py lines 118-124):
with a truthy `build_id` at hand resolve that single build, otherwise look up
the latest Copr build for the target and the commit (the source guards with
`if self.build_id`, so the integer 0 — never a real database id — would also
take the lookup path).  Also records whether the per-target lookup was
called, and with which arguments. -/
def resolveForTarget (env : TFEnv) (target : String) :
    Option CoprBuild × List (String × Option String) :=
  match env.build_id with
  | some i =>
    if i = 0 then
      (env.get_latest_copr_build target env.commit_sha, [(target, env.commit_sha)])
    else
      (env.get_by_id i, [])
  | none => (env.get_latest_copr_build target env.commit_sha, [(target, env.commit_sha)])

/-- The partition loop (testing_farm.py lines 115-129): first component is
`targets_with_builds` (in target order), second `targets_without_build`
(in target order), third the per-target lookup calls made. -/
def partitionTargets (env : TFEnv) :
    List String → List (String × CoprBuild) × List String × List (String × Option String)
  | [] => ([], [], [])
  | t :: ts =>
    let r := resolveForTarget env t
    let rest := partitionTargets env ts
    match r.1 with
    | some b => ((t, b) :: rest.1, rest.2.1, r.2 ++ rest.2.2)
    | none => (rest.1, t :: rest.2.1, r.2 ++ rest.2.2)

/-- Status text used when a target is skipped because its latest build did
not succeed. -/
def notSuccessfulDescription : String :=
  "The latest build was not successful, not running tests for it."

/-- Status text used for a target that has no Copr build yet. -/
def missingBuildDescription : String :=
  "Missing Copr build for this target, running a new Copr build."

/-- The message stored under key msg when a new build is triggered
(testing_farm.py lines 165-167). -/
def buildTriggeredMsg (ts : List String) : String :=
  "Build triggered for targets " ++ pyListRepr ts ++ " missing a Copr build. "

/-- The message fragment appended when test submissions failed
(testing_farm.py lines 194-197). -/
def failedTargetsMsg (ks : List String) : String :=
  "Failed testing farm targets: " ++ pyStrRepr (pyDictKeysRepr ks) ++ "."

/-- Accumulated effects of the test loop (testing_farm.py lines 169-189). -/
structure TestLoopOut where
  reports : List ChrootReport
  queued : Nat
  submissions : List (String × CoprBuild)
  failed : List (String × String)
deriving Repr

/-- The test loop over `targets_with_builds`: a target whose build is not in
status success gets a failure report and no submission; otherwise exactly one
test execution is submitted, and a failing execution lands in `failed` keyed
by its target. -/
def testTargets (env : TFEnv) : List (String × CoprBuild) → TestLoopOut
  | [] => ⟨[], 0, [], []⟩
  | (target, b) :: rest =>
    let r := testTargets env rest
    if b.status ≠ PG_COPR_BUILD_STATUS_SUCCESS then
      { r with
        reports :=
          ({ state := .failure
             description := notSuccessfulDescription
             url := env.get_copr_build_info_url b.id
             chroot := target } : ChrootReport) :: r.reports }
    else
      let res := env.run_testing_farm b target
      { reports := r.reports
        queued := r.queued + 1
        submissions := (target, b) :: r.submissions
        failed := if res.success then r.failed else (target, res.details) :: r.failed }

/-- Shallow embedding of `TestingFarmHandler.run` (testing_farm.py lines
96-200): partition the targets, notify and enqueue one shared Copr build for
the missing ones, run the test loop for the covered ones, and assemble the
returned `TaskResults` with its details dictionary. -/
def run (env : TFEnv) : TFRunOutput :=
  let part := partitionTargets env env.targets
  let wb := part.1
  let wob := part.2.1
  let calls := part.2.2
  let missingReports :=
    if wob.isEmpty then []
    else wob.map (fun t =>
      ({ state := .pending
         description := missingBuildDescription
         url := ""
         chroot := t } : ChrootReport))
  let buildSigs : List (List String) := if wob.isEmpty then [] else [wob]
  let queuedBuilds := if wob.isEmpty then 0 else wob.length
  let details0 : List (String × String) :=
    if wob.isEmpty then [] else dictSet [] "msg" (buildTriggeredMsg wob)
  let loop := testTargets env wb
  let finalState :=
    if loop.failed.isEmpty then (details0, true)
    else
      let sd := dictSetdefault details0 "msg" ""
      let d1 := dictSet sd.1 "msg" (sd.2 ++ failedTargetsMsg (loop.failed.map Prod.fst))
      (dictUpdate d1 loop.failed, false)
  { latest_build_lookups := calls
    targets_with_builds := wb
    targets_without_build := wob
    reports := missingReports ++ loop.reports
    copr_builds_queued := queuedBuilds
    build_signatures := buildSigs
    test_runs_queued := loop.queued
    test_submissions := loop.submissions
    result := { success := finalState.2, details := finalState.1 } }

/-! ## TestingFarmResultsHandler.run (testing_farm.py lines 205-296)

The results handler ingests one completion callback from the testing farm.
Database rows and collaborators are supplied through the environment; every
place where the Python code would dereference None raises an explicit
`PyError.attributeError` naming the attribute that was accessed on None. -/

/-- The testing farm result vocabulary the callback carries. -/
inductive TestingFarmResult
  | running
  | passed
  | failed
  | error
deriving Repr, DecidableEq

/-- The trigger object a test-run row points back to. -/
structure TriggerObject where
  job_trigger_model_type : String
  id : Nat
deriving Repr, DecidableEq

/-- A `TFTTestRunModel` row as this handler consumes it. -/
structure TFTTestRun where
  id : Nat
  submitted_time : Int
  trigger : TriggerObject
deriving Repr, DecidableEq

/-- An exception escaping the handler; `attributeError a` stands for the
AttributeError raised by reading attribute `a` on None. -/
inductive PyError
  | attributeError (attr : String)
deriving Repr, DecidableEq

/-- Environment of one `TestingFarmResultsHandler.run` invocation: the
handler fields built in `__init__` from the callback event, the database
lookup, and the current time used for the duration metric. -/
structure ResultsEnv where
  pipeline_id : String
  result : Option TestingFarmResult
  log_url : Option String
  copr_chroot : Option String
  summary : Option String
  get_by_pipeline_id : String → Option TFTTestRun
  now : Int

/-- The one status report the handler emits through `StatusReporter.report`. -/
structure StatusReport where
  state : BaseCommitStatus
  description : String
  url : Option String
  external_links : List (String × Option String)
  check_chroot : Option String
deriving Repr, DecidableEq

/-- Everything one successful run of the results handler emits. -/
structure ResultsOutput where
  warnings : List String
  status_updates : List (Nat × Option TestingFarmResult)
  web_url_updates : List (Nat × Option String)
  test_runs_started : Nat
  test_runs_finished : Nat
  run_durations : List Int
  report : StatusReport
  taskResult : TaskResults
deriving Repr, DecidableEq

/-- Python `a or b` on an optional string: an absent or empty string falls
back to the default. -/
def pyOrStr (a : Option String) (b : String) : String :=
  match a with
  | some s => if s = "" then b else s
  | none => b

/-- The result-to-status-and-summary mapping of testing_farm.py lines
251-262: the if/elif chain over the callback result, with the callback
summary taking precedence over the default text whenever it is truthy. -/
def resultStatusSummary (result : Option TestingFarmResult) (summary : Option String) :
    BaseCommitStatus × String :=
  if result = some .running then
    (.running, pyOrStr summary "Tests are running ...")
  else if result = some .passed then
    (.success, pyOrStr summary "Tests passed ...")
  else if result = some .error then
    (.error, pyOrStr summary "Error ...")
  else
    (.failure, pyOrStr summary "Tests failed ...")

/-- URL builder `get_testing_farm_info_url` from service/urls.py (an external
collaborator); only its injectivity in the run id matters here. -/
def get_testing_farm_info_url (id : Nat) : String :=
  "/results/testing-farm/" ++ toString id

/-- Shallow embedding of `TestingFarmResultsHandler.run` (testing_farm.py
lines 236-296).  The `db_trigger` property re-runs the pipeline-id lookup and
yields the trigger object of the row when one exists, None otherwise; the
subsequent attribute accesses on None raise. -/
def resultsRun (env : ResultsEnv) : Except PyError ResultsOutput :=
  let test_run_model := env.get_by_pipeline_id env.pipeline_id
  let warnings :=
    match test_run_model with
    | none => ["Unknown pipeline_id received from the testing-farm: " ++ env.pipeline_id]
    | some _ => []
  let status_updates :=
    match test_run_model with
    | some m => [(m.id, env.result)]
    | none => []
  let ss := resultStatusSummary env.result env.summary
  match
    (if env.result = some .running then
      Except.ok ((1 : Nat), (0 : Nat), ([] : List Int))
    else
      match test_run_model with
      | none => Except.error (PyError.attributeError "submitted_time")
      | some m => Except.ok (0, 1, [env.now - m.submitted_time])) with
  | Except.error e => Except.error e
  | Except.ok (started, finished, durations) =>
    let web_url_updates :=
      match test_run_model with
      | some m => [(m.id, env.log_url)]
      | none => []
    let db_trigger := (env.get_by_pipeline_id env.pipeline_id).map (fun m => m.trigger)
    match db_trigger with
    | none => Except.error (PyError.attributeError "job_trigger_model_type")
    | some _ =>
      Except.ok
        { warnings := warnings
          status_updates := status_updates
          web_url_updates := web_url_updates
          test_runs_started := started
          test_runs_finished := finished
          run_durations := durations
          report :=
            { state := ss.1
              description := ss.2
              url :=
                match test_run_model with
                | some m => some (get_testing_farm_info_url m.id)
                | none => env.log_url
              external_links := [("Testing Farm", env.log_url)]
              check_chroot := env.copr_chroot }
          taskResult := { success := true, details := [] } }

/-! ## The comment parser (spec 4.2.1)

`get_packit_commands_from_comment` lives in packit_service/worker/jobs.py,
which is not among the sources at hand; only its tests are
(tests/integration/test_pr_comment.py).  It is therefore modelled from the
specification text. -/

/-- Split a character list at every occurrence of the separator, keeping
empty pieces, as Python `str.split(sep)` does. -/
def splitListOn (sep : Char) : List Char → List (List Char)
  | [] => [[]]
  | c :: cs =>
    let r := splitListOn sep cs
    if c = sep then [] :: r
    else
      match r with
      | h :: t => (c :: h) :: t
      | [] => [[c]]

/-- Worker for `pySplit`: accumulate the current word (reversed) while
scanning; whitespace ends a word, runs of whitespace collapse, and leading or
trailing whitespace contributes nothing. -/
def pyWordsAux : List Char → List Char → List (List Char)
  | cur, [] => if cur.isEmpty then [] else [cur.reverse]
  | cur, c :: cs =>
    if c.isWhitespace then
      if cur.isEmpty then pyWordsAux [] cs else cur.reverse :: pyWordsAux [] cs
    else
      pyWordsAux (c :: cur) cs

/-- Python `str.split()` with no argument: the whitespace-separated words of
the string.  Trimming the string first would not change the result, so this
also realizes the "after trim" clause of spec 4.2.1. -/
def pySplit (s : String) : List String :=
  (pyWordsAux [] s.data).map (fun l => ⟨l⟩)

/-- The lines of a comment body. -/
def pyLines (s : String) : List String :=
  (splitListOn (Char.ofNat 10) s.data).map (fun l => ⟨l⟩)

/-- Modelled from the spec: the per-line rule of the comment parser
(spec 4.2.1).  A line qualifies when, once trimmed of leading and trailing
whitespace, it consists of the token /packit followed by whitespace, a
command name, and optional arguments, with runs of whitespace collapsed; a
qualifying line yields the command name and its arguments. -/
def packitLineCommand (line : String) : Option (List String) :=
  match pySplit line with
  | tok :: cmd :: args => if tok = "/packit" then some (cmd :: args) else none
  | _ => none

/-- Modelled from the spec: `get_packit_commands_from_comment` from
packit_service/worker/jobs.py (not among the sources at hand).  Spec 4.2.1:
the comment body is scanned line by line; each qualifying line yields one
command, in line order; a comment with no qualifying line yields an empty
command list, not a fault. -/
def get_packit_commands_from_comment (comment : String) : List (List String) :=
  (pyLines comment).filterMap packitLineCommand

/-! ## EventData (events/event.py lines 28-187)

`EventData` is the serializable envelope handed to handlers.  Machine times
are modelled as whole seconds since the epoch (the claims under scrutiny
restrict themselves to whole-second instants), the Python set stored in
`targets_override` as a deduplicated list, and an absent dictionary key or a
None attribute both as `Option.none` (Python `.get` makes the two
indistinguishable).  The retained raw dictionary attribute `event_dict` is
not modelled: no claim touches it and it would make the dictionary type
recursive. -/

/-- The forge project handle resolved from the project URL, as far as
`db_trigger` consumes it. -/
structure GitProjectRef where
  namespace_ : String
  repo : String
deriving Repr, DecidableEq

/-- The plain data fields of an `EventData` object. -/
structure EventData where
  event_type : Option String
  user_login : Option String
  trigger_id : Option Int
  project_url : Option String
  tag_name : Option String
  git_ref : Option String
  pr_id : Option Int
  commit_sha : Option String
  identifier : Option String
  issue_id : Option Int
  task_accepted_time : Option Int
  targets_override : Option (List String)
deriving Repr, DecidableEq

/-- Python `set(l)` on a list of strings, modelled as deduplication keeping
first occurrences. -/
def pySet (l : List String) : List String := l.dedup

/-- The `EventData.__init__` constructor (event.py lines 33-65): every field
is stored as passed, except `targets_override`, which becomes a set when the
argument is truthy and None otherwise (so an empty list is stored as None). -/
def EventData.init (event_type user_login : Option String) (trigger_id : Option Int)
    (project_url tag_name git_ref : Option String) (pr_id : Option Int)
    (commit_sha identifier : Option String) (issue_id : Option Int)
    (task_accepted_time : Option Int) (targets_override : Option (List String)) :
    EventData :=
  { event_type := event_type
    user_login := user_login
    trigger_id := trigger_id
    project_url := project_url
    tag_name := tag_name
    git_ref := git_ref
    pr_id := pr_id
    commit_sha := commit_sha
    identifier := identifier
    issue_id := issue_id
    task_accepted_time := task_accepted_time
    targets_override :=
      match targets_override with
      | some l => if l.isEmpty then none else some (pySet l)
      | none => none }

/-- The serialized event dictionary, with one field per key the round trip
reads or writes.  `_pr_id` is the key a forge event object would carry; a
dictionary produced by `EventData.get_dict` never has it.  The two boolean
flags record the presence of the popped lazy-attribute keys. -/
structure EventDict where
  event_type : Option String
  user_login : Option String
  trigger_id : Option Int
  project_url : Option String
  tag_name : Option String
  git_ref : Option String
  _pr_id : Option Int
  pr_id : Option Int
  commit_sha : Option String
  identifier : Option String
  issue_id : Option Int
  task_accepted_time : Option Int
  targets_override : Option (List String)
  has_lazy_project : Bool
  has_lazy_db_trigger : Bool
deriving Repr, DecidableEq

/-- Python `a or b` on optional integers: zero and None are falsy. -/
def pyOrInt (a b : Option Int) : Option Int :=
  match a with
  | some v => if v = 0 then b else some v
  | none => b

/-- `EventData.from_event_dict` (event.py lines 67-101): read each key with
`.get`, preferring the `_pr_id` key over `pr_id` with Python `or`, and parse
the accepted time only when the stored timestamp is truthy (so timestamp 0 is
read back as None). -/
def EventData.from_event_dict (event : EventDict) : EventData :=
  EventData.init event.event_type event.user_login event.trigger_id
    event.project_url event.tag_name event.git_ref
    (pyOrInt event._pr_id event.pr_id) event.commit_sha event.identifier
    event.issue_id
    (match event.task_accepted_time with
     | some ts => if ts = 0 then none else some ts
     | none => none)
    event.targets_override

/-- `EventData.get_dict` (event.py lines 168-180): deep-copy the attribute
dictionary, turn the accepted time into an integer timestamp (a datetime
object is always truthy, so an epoch instant still serializes to 0), turn a
truthy targets set into a list, and pop both lazy attributes. -/
def EventData.get_dict (d : EventData) : EventDict :=
  { event_type := d.event_type
    user_login := d.user_login
    trigger_id := d.trigger_id
    project_url := d.project_url
    tag_name := d.tag_name
    git_ref := d.git_ref
    _pr_id := none
    pr_id := d.pr_id
    commit_sha := d.commit_sha
    identifier := d.identifier
    issue_id := d.issue_id
    task_accepted_time := d.task_accepted_time
    targets_override := d.targets_override
    has_lazy_project := false
    has_lazy_db_trigger := false }

/-! ### The db_trigger table and the lazy properties (event.py lines 103-166) -/

/-- A get-or-create call against storage, i.e. which model is upserted and
with which natural key. -/
inductive UpsertCall
  | pullRequest (pr_id : Option Int) (namespace_ repo_name : String)
      (project_url : Option String)
  | gitBranch (branch_name : Option String) (namespace_ repo_name : String)
      (project_url : Option String)
  | projectRelease (tag_name : Option String) (namespace_ repo_name : String)
      (project_url : Option String) (commit_hash : Option String)
  | issue (issue_id : Option Int) (namespace_ repo_name : String)
      (project_url : Option String)
deriving Repr, DecidableEq

/-- The event types routed to `PullRequestModel.get_or_create`. -/
def pullRequestEventTypes : List String :=
  ["PullRequestGithubEvent", "PullRequestPagureEvent", "MergeRequestGitlabEvent",
   "PullRequestCommentGithubEvent", "MergeRequestCommentGitlabEvent",
   "PullRequestCommentPagureEvent", "CheckRerunPullRequestEvent"]

/-- The event types routed to `GitBranchModel.get_or_create`. -/
def pushEventTypes : List String :=
  ["PushGitHubEvent", "PushGitlabEvent", "PushPagureEvent", "CheckRerunCommitEvent"]

/-- The event types routed to `ProjectReleaseModel.get_or_create`. -/
def releaseEventTypes : List String :=
  ["ReleaseEvent", "CheckRerunReleaseEvent"]

/-- The event types routed to `IssueModel.get_or_create`. -/
def issueCommentEventTypes : List String :=
  ["IssueCommentEvent", "IssueCommentGitlabEvent"]

/-- Python `s in {...}` on an optional string (None is in no set). -/
def optMem (s : Option String) (l : List String) : Bool :=
  match s with
  | some v => decide (v ∈ l)
  | none => false

/-- The body of the `EventData.db_trigger` resolver (event.py lines 109-166):
the if/elif chain over the event type, each branch recording the upsert it
performs with the key fields it passes.  `proj` is the resolved project
handle whose namespace and repo every branch reads. -/
def dbTriggerResolve (d : EventData) (proj : GitProjectRef) : Option UpsertCall :=
  if optMem d.event_type pullRequestEventTypes then
    some (.pullRequest d.pr_id proj.namespace_ proj.repo d.project_url)
  else if optMem d.event_type pushEventTypes then
    some (.gitBranch d.git_ref proj.namespace_ proj.repo d.project_url)
  else if optMem d.event_type releaseEventTypes then
    some (.projectRelease d.tag_name proj.namespace_ proj.repo d.project_url d.commit_sha)
  else if optMem d.event_type issueCommentEventTypes then
    some (.issue d.issue_id proj.namespace_ proj.repo d.project_url)
  else
    none

/-- One read of a lazily resolved property of the shape used throughout
event.py: `if not self._x: self._x = resolve()` followed by `return self._x`.
Returns the value the read yields, the cache afterwards, and how many times
the resolver ran during this read.  A cached object is truthy, so the
resolver is skipped; an empty cache is falsy, so the resolver runs and its
result (possibly None) is assigned. -/
def lazyRead {α : Type} (resolved : Option α) (cache : Option α) :
    Option α × Option α × Nat :=
  match cache with
  | none => (resolved, resolved, 1)
  | some v => (some v, some v, 0)

/-- `EventData.get_project` (event.py lines 182-187): None when the project
URL is falsy, otherwise the service-config lookup of that URL. -/
def EventData.get_project (d : EventData) (lookup : String → GitProjectRef) :
    Option GitProjectRef :=
  match d.project_url with
  | none => none
  | some u => if u = "" then none else some (lookup u)

/-- One read of the `EventData.project` property (event.py lines 103-107). -/
def EventData.projectRead (d : EventData) (lookup : String → GitProjectRef)
    (cache : Option GitProjectRef) :
    Option GitProjectRef × Option GitProjectRef × Nat :=
  lazyRead (d.get_project lookup) cache

/-- One read of the `EventData.db_trigger` property (event.py lines 109-166);
the stored record is identified by the upsert that creates it. -/
def EventData.dbTriggerRead (d : EventData) (proj : GitProjectRef)
    (cache : Option UpsertCall) :
    Option UpsertCall × Option UpsertCall × Nat :=
  lazyRead (dbTriggerResolve d proj) cache

/-! ## Helper lemmas -/

theorem dictGet_dictSet_self (d : List (String × String)) (k v : String) :
    dictGet (dictSet d k v) k = some v := by
  induction d with
  | nil => simp [dictGet, dictSet]
  | cons p rest ih =>
    by_cases h : p.1 = k
    · simp [dictGet, dictSet, h]
    · simp [dictGet, dictSet, h, ih]

theorem dictGet_dictSet_other (d : List (String × String)) (k k2 v : String)
    (h : k ≠ k2) : dictGet (dictSet d k v) k2 = dictGet d k2 := by
  induction d with
  | nil => simp [dictGet, dictSet, h]
  | cons p rest ih =>
    by_cases hp : p.1 = k
    · simp [dictGet, dictSet, hp, h, ih]
    · by_cases hp2 : p.1 = k2
      · simp [dictGet, dictSet, hp, hp2, Ne.symm h]
      · simp [dictGet, dictSet, hp, hp2, ih]

theorem dictGet_dictUpdate_not_mem (d e : List (String × String)) (k : String)
    (h : ∀ p ∈ e, p.1 ≠ k) : dictGet (dictUpdate d e) k = dictGet d k := by
  induction e generalizing d with
  | nil => rfl
  | cons p rest ih =>
    have hp : p.1 ≠ k := h p (List.mem_cons_self p rest)
    have hrest : ∀ q ∈ rest, q.1 ≠ k := fun q hq => h q (List.mem_cons_of_mem p hq)
    calc dictGet (dictUpdate d (p :: rest)) k
        = dictGet (dictUpdate (dictSet d p.1 p.2) rest) k := rfl
      _ = dictGet (dictSet d p.1 p.2) k := ih (dictSet d p.1 p.2) hrest
      _ = dictGet d k := dictGet_dictSet_other d p.1 k p.2 hp

theorem dictGet_dictUpdate_mem (d : List (String × String))
    (e : List (String × String)) (k v : String)
    (hnd : (e.map Prod.fst).Nodup) (hm : (k, v) ∈ e) :
    dictGet (dictUpdate d e) k = some v := by
  induction e generalizing d with
  | nil => cases hm
  | cons p rest ih =>
    rcases List.mem_cons.mp hm with heq | htail
    · subst heq
      have hrest : ∀ q ∈ rest, q.1 ≠ k := by
        intro q hq
        have := (List.nodup_cons.mp hnd).1
        intro hk
        exact this (by simpa [hk] using List.mem_map_of_mem Prod.fst hq)
      calc dictGet (dictUpdate d ((k, v) :: rest)) k
          = dictGet (dictUpdate (dictSet d k v) rest) k := rfl
        _ = dictGet (dictSet d k v) k :=
            dictGet_dictUpdate_not_mem (dictSet d k v) rest k hrest
        _ = some v := dictGet_dictSet_self d k v
    · exact ih (dictSet d p.1 p.2) (List.nodup_cons.mp hnd).2 htail

theorem length_filterMap_eq_length_filter {α β : Type} (f : α → Option β)
    (l : List α) :
    (l.filterMap f).length = (l.filter (fun a => (f a).isSome)).length := by
  induction l with
  | nil => rfl
  | cons a l ih =>
    cases h : f a <;>
      simp [List.filterMap_cons, List.filter_cons, h, ih]

theorem eq_of_fst_eq_of_nodup {α β : Type} (l : List (α × β))
    (h : (l.map Prod.fst).Nodup) {p q : α × β}
    (hp : p ∈ l) (hq : q ∈ l) (he : p.1 = q.1) : p = q := by
  induction l with
  | nil => cases hp
  | cons r rest ih =>
    have hhead := (List.nodup_cons.mp h).1
    rcases List.mem_cons.mp hp with rfl | hp2
    · rcases List.mem_cons.mp hq with rfl | hq2
      · rfl
      · exact absurd (by simpa [← he] using List.mem_map_of_mem Prod.fst hq2)
          hhead
    · rcases List.mem_cons.mp hq with rfl | hq2
      · exact absurd (by simpa [he] using List.mem_map_of_mem Prod.fst hp2)
          hhead
      · exact ih (List.nodup_cons.mp h).2 hp2 hq2

/-! ### Characterizations of the partition loop -/

theorem partitionTargets_withBuilds_eq (env : TFEnv) (ts : List String) :
    (partitionTargets env ts).1 =
      ts.filterMap (fun t => ((resolveForTarget env t).1).map (fun b => (t, b))) := by
  induction ts with
  | nil => rfl
  | cons t ts ih =>
    simp only [partitionTargets, List.filterMap_cons]
    cases h : (resolveForTarget env t).1 <;> simp [h, ih]

theorem partitionTargets_withoutBuild_eq (env : TFEnv) (ts : List String) :
    (partitionTargets env ts).2.1 =
      ts.filter (fun t => ((resolveForTarget env t).1).isNone) := by
  induction ts with
  | nil => rfl
  | cons t ts ih =>
    simp only [partitionTargets, List.filter_cons]
    cases h : (resolveForTarget env t).1 <;> simp [h, ih]

theorem partitionTargets_fst_map (env : TFEnv) (ts : List String) :
    (partitionTargets env ts).1.map Prod.fst =
      ts.filter (fun t => ((resolveForTarget env t).1).isSome) := by
  induction ts with
  | nil => rfl
  | cons t ts ih =>
    simp only [partitionTargets, List.filter_cons]
    cases h : (resolveForTarget env t).1 <;> simp [h, ih]

theorem partitionTargets_calls_of_build_id (env : TFEnv) (i : Nat)
    (h : env.build_id = some i) (hi : i ≠ 0) (ts : List String) :
    (partitionTargets env ts).2.2 = [] := by
  induction ts with
  | nil => rfl
  | cons t ts ih =>
    simp only [partitionTargets]
    cases hr : (resolveForTarget env t).1 <;>
      simpa [resolveForTarget, h, hi, hr] using ih

/-! ### Characterizations of the test loop -/

theorem testTargets_submissions_eq (env : TFEnv) (wb : List (String × CoprBuild)) :
    (testTargets env wb).submissions =
      wb.filter (fun p => p.2.status = PG_COPR_BUILD_STATUS_SUCCESS) := by
  induction wb with
  | nil => rfl
  | cons p rest ih =>
    obtain ⟨target, b⟩ := p
    by_cases h : b.status = PG_COPR_BUILD_STATUS_SUCCESS <;>
      simp [testTargets, List.filter_cons, h, ih]

theorem testTargets_failed_eq (env : TFEnv) (wb : List (String × CoprBuild)) :
    (testTargets env wb).failed =
      (wb.filter (fun p => p.2.status = PG_COPR_BUILD_STATUS_SUCCESS
          ∧ (env.run_testing_farm p.2 p.1).success = false)).map
        (fun p => (p.1, (env.run_testing_farm p.2 p.1).details)) := by
  induction wb with
  | nil => rfl
  | cons p rest ih =>
    obtain ⟨target, b⟩ := p
    by_cases h : b.status = PG_COPR_BUILD_STATUS_SUCCESS
    · by_cases hs : (env.run_testing_farm b target).success
      · simp [testTargets, List.filter_cons, h, hs, ih]
      · simp [testTargets, List.filter_cons, h,
          Bool.eq_false_iff.mpr hs, ih]
    · simp [testTargets, List.filter_cons, h, ih]

theorem testTargets_reports_eq (env : TFEnv) (wb : List (String × CoprBuild)) :
    (testTargets env wb).reports =
      (wb.filter (fun p => ¬ p.2.status = PG_COPR_BUILD_STATUS_SUCCESS)).map
        (fun p =>
          ({ state := .failure
             description := notSuccessfulDescription
             url := env.get_copr_build_info_url p.2.id
             chroot := p.1 } : ChrootReport)) := by
  induction wb with
  | nil => rfl
  | cons p rest ih =>
    obtain ⟨target, b⟩ := p
    by_cases h : b.status = PG_COPR_BUILD_STATUS_SUCCESS <;>
      simp [testTargets, List.filter_cons, h, ih]

theorem testTargets_queued_eq (env : TFEnv) (wb : List (String × CoprBuild)) :
    (testTargets env wb).queued =
      (wb.filter (fun p => p.2.status = PG_COPR_BUILD_STATUS_SUCCESS)).length := by
  induction wb with
  | nil => rfl
  | cons p rest ih =>
    obtain ⟨target, b⟩ := p
    by_cases h : b.status = PG_COPR_BUILD_STATUS_SUCCESS <;>
      simp [testTargets, List.filter_cons, h, ih]

/-! ## Claims about TestingFarmHandler.run -/

/-- Unfolding lemma: the components `run` exposes are the partition and the
test loop over it. -/
theorem run_components (env : TFEnv) :
    (run env).targets_with_builds = (partitionTargets env env.targets).1
    ∧ (run env).targets_without_build = (partitionTargets env env.targets).2.1
    ∧ (run env).latest_build_lookups = (partitionTargets env env.targets).2.2
    ∧ (run env).test_submissions = (testTargets env (partitionTargets env env.targets).1).submissions
    ∧ (run env).build_signatures =
        (if (partitionTargets env env.targets).2.1.isEmpty then []
         else [(partitionTargets env env.targets).2.1]) := by
  refine ⟨rfl, rfl, rfl, rfl, rfl⟩

/-- Claim C2: the partition computed by `TestingFarmHandler.run` covers the
input targets exactly, with the two parts disjoint; one Copr build task is
enqueued exactly when some target lacks a build; one test execution is
submitted per covered target whose build succeeded; and when every target
has a succeeded build there are no build tasks and as many test submissions
as targets. -/
theorem run_partitions_targets_and_counts_jobs (env : TFEnv)
    (hnd : env.targets.Nodup) :
    (∀ t, (t ∈ (run env).targets_with_builds.map Prod.fst
        ∨ t ∈ (run env).targets_without_build) ↔ t ∈ env.targets)
    ∧ (∀ t, t ∈ (run env).targets_with_builds.map Prod.fst →
        t ∉ (run env).targets_without_build)
    ∧ ((run env).targets_with_builds.map Prod.fst).Nodup
    ∧ (run env).targets_without_build.Nodup
    ∧ (run env).build_signatures.length =
        (if (run env).targets_without_build.isEmpty then 0 else 1)
    ∧ (run env).test_submissions =
        (run env).targets_with_builds.filter
          (fun p => p.2.status = PG_COPR_BUILD_STATUS_SUCCESS)
    ∧ ((run env).targets_without_build = [] →
        (∀ p ∈ (run env).targets_with_builds,
            p.2.status = PG_COPR_BUILD_STATUS_SUCCESS) →
        (run env).build_signatures = []
        ∧ (run env).test_submissions.length = env.targets.length) := by
  obtain ⟨hwb, hwob, -, hsub, hsig⟩ := run_components env
  constructor
  · intro t
    rw [hwb, hwob, partitionTargets_fst_map, partitionTargets_withoutBuild_eq]
    simp only [List.mem_filter]
    constructor
    · rintro (⟨ht, -⟩ | ⟨ht, -⟩) <;> exact ht
    · intro ht
      cases h : (resolveForTarget env t).1 with
      | none => exact Or.inr ⟨ht, by simp [h]⟩
      | some b => exact Or.inl ⟨ht, by simp [h]⟩
  constructor
  · intro t hm hwo
    rw [hwb, partitionTargets_fst_map] at hm
    rw [hwob, partitionTargets_withoutBuild_eq] at hwo
    have h1 := (List.mem_filter.mp hm).2
    have h2 := (List.mem_filter.mp hwo).2
    cases h : (resolveForTarget env t).1 <;> simp [h] at h1 h2
  constructor
  · rw [hwb, partitionTargets_fst_map]
    exact hnd.filter _
  constructor
  · rw [hwob, partitionTargets_withoutBuild_eq]
    exact hnd.filter _
  constructor
  · rw [hsig]
    by_cases h : (partitionTargets env env.targets).2.1.isEmpty <;>
      simp [hwob, h]
  constructor
  · rw [hsub, hwb, testTargets_submissions_eq]
  · intro hempty hall
    constructor
    · rw [hsig, hwob.symm, hempty]
      rfl
    · rw [hsub, testTargets_submissions_eq]
      have hfilter : (partitionTargets env env.targets).1.filter
          (fun p => p.2.status = PG_COPR_BUILD_STATUS_SUCCESS) =
          (partitionTargets env env.targets).1 := by
        apply List.filter_eq_self.mpr
        intro p hp
        rw [← hwb] at hp
        simpa using hall p hp
      rw [hfilter]
      have hlen : ((partitionTargets env env.targets).1.map Prod.fst).length =
          (env.targets.filter
            (fun t => ((resolveForTarget env t).1).isSome)).length := by
        rw [partitionTargets_fst_map]
      rw [List.length_map] at hlen
      rw [hlen]
      have hallsome : ∀ t ∈ env.targets, ((resolveForTarget env t).1).isSome := by
        intro t ht
        by_contra hns
        have hmem : t ∈ (run env).targets_without_build := by
          rw [hwob, partitionTargets_withoutBuild_eq]
          refine List.mem_filter.mpr ⟨ht, ?_⟩
          cases h : (resolveForTarget env t).1 with
          | none => simp
          | some b => simp [h] at hns
        rw [hempty] at hmem
        cases hmem
      calc (env.targets.filter (fun t => ((resolveForTarget env t).1).isSome)).length
          = env.targets.length := by
            rw [List.filter_eq_self.mpr (fun t ht => by simpa using hallsome t ht)]

/-- A mixed example environment: one target with a succeeded build, one with
a failed build, one with no build at all. -/
def tfEnvExample : TFEnv :=
  { targets := ["fedora-35-x86_64", "fedora-36-x86_64", "fedora-37-x86_64"]
    build_id := none
    commit_sha := some "abc123"
    get_by_id := fun _ => none
    get_latest_copr_build := fun t _ =>
      if t = "fedora-35-x86_64" then some { id := 1, status := "success" }
      else if t = "fedora-36-x86_64" then some { id := 2, status := "failure" }
      else none
    run_testing_farm := fun _ t =>
      { success := t = "fedora-35-x86_64", details := "test error output" }
    get_copr_build_info_url := fun i => "/results/copr-builds/" ++ toString i }

/-- Witness for C2 at the mixed example environment. -/
theorem run_partitions_targets_and_counts_jobs_witness :
    (run tfEnvExample).test_submissions =
      (run tfEnvExample).targets_with_builds.filter
        (fun p => p.2.status = PG_COPR_BUILD_STATUS_SUCCESS) :=
  (run_partitions_targets_and_counts_jobs tfEnvExample (by decide)).2.2.2.2.2.1

/-- Claim C3: when no target resolves to an existing build, `run` emits one
pending notification per target, enqueues exactly one Copr build task whose
target override is the full input list, and submits no tests. -/
theorem run_all_targets_missing_build (env : TFEnv) (hne : env.targets ≠ [])
    (hmiss : ∀ t ∈ env.targets, (resolveForTarget env t).1 = none) :
    (run env).reports = env.targets.map (fun t =>
      ({ state := .pending
         description := missingBuildDescription
         url := ""
         chroot := t } : ChrootReport))
    ∧ (run env).build_signatures = [env.targets]
    ∧ (run env).test_submissions = []
    ∧ (run env).targets_without_build = env.targets := by
  have hwob : (partitionTargets env env.targets).2.1 = env.targets := by
    rw [partitionTargets_withoutBuild_eq]
    apply List.filter_eq_self.mpr
    intro t ht
    simp [hmiss t ht]
  have hwb : (partitionTargets env env.targets).1 = [] := by
    rw [partitionTargets_withBuilds_eq]
    apply List.filterMap_eq_nil_iff.mpr
    intro t ht
    simp [hmiss t ht]
  have hne2 : (partitionTargets env env.targets).2.1.isEmpty = false := by
    rw [hwob]
    cases h : env.targets with
    | nil => exact absurd h hne
    | cons a l => rfl
  refine ⟨?_, ?_, ?_, ?_⟩
  · show (if (partitionTargets env env.targets).2.1.isEmpty then []
        else (partitionTargets env env.targets).2.1.map _) ++
        (testTargets env (partitionTargets env env.targets).1).reports = _
    rw [hne2, hwb, hwob]
    simp [testTargets]
  · show (if (partitionTargets env env.targets).2.1.isEmpty then []
        else [(partitionTargets env env.targets).2.1]) = _
    rw [hne2, hwob]
    rfl
  · show (testTargets env (partitionTargets env env.targets).1).submissions = []
    rw [hwb]
    rfl
  · show (partitionTargets env env.targets).2.1 = env.targets
    exact hwob

/-- An environment in which no target has any build. -/
def tfEnvAllMissing : TFEnv :=
  { targets := ["fedora-35-x86_64", "fedora-36-x86_64"]
    build_id := none
    commit_sha := some "abc123"
    get_by_id := fun _ => none
    get_latest_copr_build := fun _ _ => none
    run_testing_farm := fun _ _ => { success := true, details := "" }
    get_copr_build_info_url := fun i => "/results/copr-builds/" ++ toString i }

/-- Witness for C3 at the all-missing environment. -/
theorem run_all_targets_missing_build_witness :
    (run tfEnvAllMissing).build_signatures =
      [["fedora-35-x86_64", "fedora-36-x86_64"]] :=
  (run_all_targets_missing_build tfEnvAllMissing (by decide)
    (by intro t ht; rfl)).2.1

/-- Claim C6: when `build_id` is set (carrying a real, hence nonzero,
database id), the per-target latest-build lookup is never called, and every
covered target carries the build resolved directly from that id. -/
theorem run_build_id_bypasses_lookup (env : TFEnv) (i : Nat)
    (h : env.build_id = some i) (hi : i ≠ 0) :
    (run env).latest_build_lookups = []
    ∧ ∀ p ∈ (run env).targets_with_builds, env.get_by_id i = some p.2 := by
  constructor
  · show (partitionTargets env env.targets).2.2 = []
    exact partitionTargets_calls_of_build_id env i h hi env.targets
  · intro p hp
    have : p ∈ (partitionTargets env env.targets).1 := hp
    rw [partitionTargets_withBuilds_eq] at this
    obtain ⟨t, -, hm⟩ := List.mem_filterMap.mp this
    cases hr : (resolveForTarget env t).1 with
    | none => simp [hr] at hm
    | some b =>
      simp only [hr, Option.map_some] at hm
      obtain ⟨rfl⟩ := Option.some.injEq _ _ ▸ hm
      have : (resolveForTarget env t).1 = env.get_by_id i := by
        simp [resolveForTarget, h, hi]
      rw [this] at hr
      simp [hr]

/-- An environment seeded from a finished build id. -/
def tfEnvWithBuildId : TFEnv :=
  { targets := ["fedora-35-x86_64", "fedora-36-x86_64"]
    build_id := some 41
    commit_sha := some "abc123"
    get_by_id := fun i =>
      if i = 41 then some { id := 41, status := "success" } else none
    get_latest_copr_build := fun _ _ => some { id := 99, status := "success" }
    run_testing_farm := fun _ _ => { success := true, details := "" }
    get_copr_build_info_url := fun i => "/results/copr-builds/" ++ toString i }

/-- Witness for C6 at the build-id environment. -/
theorem run_build_id_bypasses_lookup_witness :
    (run tfEnvWithBuildId).latest_build_lookups = [] :=
  (run_build_id_bypasses_lookup tfEnvWithBuildId 41 rfl (by decide)).1

/-- The overall success bit is exactly "no submitted test failed". -/
theorem run_result_success_eq (env : TFEnv) :
    (run env).result.success =
      (testTargets env (partitionTargets env env.targets).1).failed.isEmpty := by
  by_cases hf : (testTargets env (partitionTargets env env.targets).1).failed.isEmpty <;>
    simp [run, hf]

/-- The details dictionary in the failing case. -/
theorem run_result_details_failed (env : TFEnv)
    (hf : (testTargets env (partitionTargets env env.targets).1).failed.isEmpty = false) :
    (run env).result.details =
      (let details0 :=
        if (partitionTargets env env.targets).2.1.isEmpty then []
        else dictSet [] "msg"
          (buildTriggeredMsg (partitionTargets env env.targets).2.1)
       let sd := dictSetdefault details0 "msg" ""
       dictUpdate
         (dictSet sd.1 "msg"
           (sd.2 ++ failedTargetsMsg
             ((testTargets env (partitionTargets env env.targets).1).failed.map
               Prod.fst)))
         (testTargets env (partitionTargets env env.targets).1).failed) := by
  simp only [run, hf]
  rfl

/-- Claim C4: `TestingFarmHandler.run` returns success exactly when every
submitted test execution succeeded; a target whose latest build did not
succeed gets a failure notification and no test submission without failing
the overall result; every failing execution lands in the returned details
keyed by its target with overall success false, and the message then names
the failed targets. -/
theorem run_aggregates_results (env : TFEnv) (hnd : env.targets.Nodup)
    (hmsg : "msg" ∉ env.targets) :
    ((run env).result.success = true ↔
      ∀ p ∈ (run env).targets_with_builds,
        p.2.status = PG_COPR_BUILD_STATUS_SUCCESS →
        (env.run_testing_farm p.2 p.1).success = true)
    ∧ (∀ p ∈ (run env).targets_with_builds,
        ¬ p.2.status = PG_COPR_BUILD_STATUS_SUCCESS →
        ({ state := .failure
           description := notSuccessfulDescription
           url := env.get_copr_build_info_url p.2.id
           chroot := p.1 } : ChrootReport) ∈ (run env).reports
        ∧ p.1 ∉ (run env).test_submissions.map Prod.fst)
    ∧ (∀ p ∈ (run env).targets_with_builds,
        p.2.status = PG_COPR_BUILD_STATUS_SUCCESS →
        (env.run_testing_farm p.2 p.1).success = false →
        dictGet (run env).result.details p.1 =
          some (env.run_testing_farm p.2 p.1).details
        ∧ (run env).result.success = false)
    ∧ ((run env).result.success = false →
        ∃ pre, dictGet (run env).result.details "msg" =
          some (pre ++ failedTargetsMsg
            (((run env).targets_with_builds.filter
                (fun p => p.2.status = PG_COPR_BUILD_STATUS_SUCCESS
                  ∧ (env.run_testing_farm p.2 p.1).success = false)).map
              Prod.fst))) := by
  have hwb : (run env).targets_with_builds = (partitionTargets env env.targets).1 := rfl
  have hfstnd : ((partitionTargets env env.targets).1.map Prod.fst).Nodup := by
    rw [partitionTargets_fst_map]
    exact hnd.filter _
  have hsubtargets : ∀ p ∈ (partitionTargets env env.targets).1, p.1 ∈ env.targets := by
    intro p hp
    rw [partitionTargets_withBuilds_eq] at hp
    obtain ⟨t, ht, hm⟩ := List.mem_filterMap.mp hp
    cases hr : (resolveForTarget env t).1 with
    | none => simp [hr] at hm
    | some b =>
      have hpt : (t, b) = p := by simpa [hr] using hm
      rw [← hpt]
      exact ht
  have hfailedmap :
      (testTargets env (partitionTargets env env.targets).1).failed.map Prod.fst =
      ((partitionTargets env env.targets).1.filter
        (fun p => p.2.status = PG_COPR_BUILD_STATUS_SUCCESS
          ∧ (env.run_testing_farm p.2 p.1).success = false)).map Prod.fst := by
    rw [testTargets_failed_eq, List.map_map]
    rfl
  have hfailednd :
      ((testTargets env (partitionTargets env env.targets).1).failed.map
        Prod.fst).Nodup := by
    rw [hfailedmap]
    exact ((List.filter_sublist _).map Prod.fst).nodup hfstnd
  have hfailedtargets :
      ∀ q ∈ (testTargets env (partitionTargets env env.targets).1).failed,
        q.1 ∈ env.targets := by
    intro q hq
    rw [testTargets_failed_eq] at hq
    obtain ⟨p, hp, hqp⟩ := List.mem_map.mp hq
    rw [← hqp]
    exact hsubtargets p (List.mem_of_mem_filter hp)
  refine ⟨?_, ?_, ?_, ?_⟩
  · rw [run_result_success_eq, hwb]
    rw [List.isEmpty_iff, testTargets_failed_eq, List.map_eq_nil_iff,
      List.filter_eq_nil_iff]
    constructor
    · intro h p hp hst
      by_contra hfail
      exact h p hp (by simp [hst, Bool.eq_false_iff.mpr hfail])
    · intro h p hp hcond
      simp only [decide_eq_true_eq] at hcond
      exact absurd (h p hp hcond.1) (by simp [hcond.2])
  · intro p hp hst
    constructor
    · show _ ∈ (if (partitionTargets env env.targets).2.1.isEmpty then []
          else (partitionTargets env env.targets).2.1.map _) ++
          (testTargets env (partitionTargets env env.targets).1).reports
      refine List.mem_append.mpr (Or.inr ?_)
      rw [testTargets_reports_eq]
      refine List.mem_map.mpr ⟨p, List.mem_filter.mpr ⟨hp, by simpa using hst⟩, rfl⟩
    · intro hmem
      have hsub : (run env).test_submissions =
          (partitionTargets env env.targets).1.filter
            (fun q => q.2.status = PG_COPR_BUILD_STATUS_SUCCESS) := by
        show (testTargets env (partitionTargets env env.targets).1).submissions = _
        exact testTargets_submissions_eq env _
      rw [hsub] at hmem
      obtain ⟨q, hq, hq1⟩ := List.mem_map.mp hmem
      have hqmem := List.mem_of_mem_filter hq
      have hqst := (List.mem_filter.mp hq).2
      have : q = p := eq_of_fst_eq_of_nodup _ hfstnd hqmem hp hq1
      rw [this] at hqst
      exact hst (by simpa using hqst)
  · intro p hp hst hfail
    have hmemfailed : (p.1, (env.run_testing_farm p.2 p.1).details) ∈
        (testTargets env (partitionTargets env env.targets).1).failed := by
      rw [testTargets_failed_eq]
      exact List.mem_map.mpr ⟨p, List.mem_filter.mpr ⟨hp, by simp [hst, hfail]⟩, rfl⟩
    have hne : (testTargets env (partitionTargets env env.targets).1).failed.isEmpty
        = false := by
      rcases h : (testTargets env (partitionTargets env env.targets).1).failed with
        _ | _
      · rw [h] at hmemfailed
        cases hmemfailed
      · rfl
    constructor
    · rw [run_result_details_failed env hne]
      exact dictGet_dictUpdate_mem _ _ _ _ hfailednd hmemfailed
    · rw [run_result_success_eq, hne]
  · intro hfalse
    have hne : (testTargets env (partitionTargets env env.targets).1).failed.isEmpty
        = false := by
      rw [run_result_success_eq] at hfalse
      exact hfalse
    rw [run_result_details_failed env hne, hwb]
    refine ⟨(dictSetdefault
      (if (partitionTargets env env.targets).2.1.isEmpty then []
       else dictSet [] "msg"
         (buildTriggeredMsg (partitionTargets env env.targets).2.1)) "msg" "").2, ?_⟩
    have hnotmem : ∀ q ∈ (testTargets env (partitionTargets env env.targets).1).failed,
        q.1 ≠ "msg" := by
      intro q hq he
      exact hmsg (he ▸ hfailedtargets q hq)
    rw [dictGet_dictUpdate_not_mem _ _ _ hnotmem, dictGet_dictSet_self, hfailedmap]

/-- Witness for C4 at the mixed example environment (the skipped-target and
building branches are exercised; all submitted tests succeed there). -/
theorem run_aggregates_results_witness :
    (run tfEnvExample).result.success = true ↔
      ∀ p ∈ (run tfEnvExample).targets_with_builds,
        p.2.status = PG_COPR_BUILD_STATUS_SUCCESS →
        (tfEnvExample.run_testing_farm p.2 p.1).success = true :=
  (run_aggregates_results tfEnvExample (by decide) (by decide)).1

/-! ## Claims about TestingFarmResultsHandler.run -/

/-- A callback whose pipeline id matches no stored test-run record. -/
def unknownPipelineEnv : ResultsEnv :=
  { pipeline_id := "4a43a979-ff1f-4e3a-b1e1-28b1f1c14e1b"
    result := some TestingFarmResult.failed
    log_url := some "https://tf.example/artifacts/log"
    copr_chroot := some "fedora-35-x86_64"
    summary := none
    get_by_pipeline_id := fun _ => none
    now := 1000 }

/-- Claim C1: contrary to the specification, a completion callback for an
unknown pipeline id makes `TestingFarmResultsHandler.run` raise instead of
reporting best-effort and returning success.  For a terminal result the
duration metric dereferences `submitted_time` on the missing run record; for
a running result the trigger lookup dereferences `job_trigger_model_type` on
the None `db_trigger`.  No status report is emitted and no `TaskResults` is
returned on either path. -/
theorem resultsRun_unknown_pipeline_raises :
    resultsRun unknownPipelineEnv =
      Except.error (PyError.attributeError "submitted_time")
    ∧ resultsRun { unknownPipelineEnv with result := some TestingFarmResult.running } =
      Except.error (PyError.attributeError "job_trigger_model_type") :=
  ⟨rfl, rfl⟩

/-- Claim C5 counterexample: a callback that does supply a summary, the empty
string, still gets the default text — so the default is not used only when no
summary is supplied. -/
theorem resultStatusSummary_empty_summary_gets_default :
    resultStatusSummary (some TestingFarmResult.passed) (some "") =
      (BaseCommitStatus.success, "Tests passed ...") :=
  rfl

/-- Claim C5 (amended): the result-to-status mapping is total over the four
results with the four literal default summaries, the default being used
exactly when the supplied summary is absent or empty; a non-empty summary is
passed through unchanged, and never changes the mapped status. -/
theorem resultStatusSummary_total_mapping (r : TestingFarmResult) (s : String) :
    resultStatusSummary (some TestingFarmResult.running) none =
      (BaseCommitStatus.running, "Tests are running ...")
    ∧ resultStatusSummary (some TestingFarmResult.passed) none =
      (BaseCommitStatus.success, "Tests passed ...")
    ∧ resultStatusSummary (some TestingFarmResult.error) none =
      (BaseCommitStatus.error, "Error ...")
    ∧ resultStatusSummary (some TestingFarmResult.failed) none =
      (BaseCommitStatus.failure, "Tests failed ...")
    ∧ (s ≠ "" → (resultStatusSummary (some r) (some s)).2 = s)
    ∧ (resultStatusSummary (some r) (some s)).1 =
        (resultStatusSummary (some r) none).1
    ∧ resultStatusSummary (some r) (some "") = resultStatusSummary (some r) none := by
  refine ⟨rfl, rfl, rfl, rfl, ?_, ?_, ?_⟩
  · intro hs
    cases r <;> simp [resultStatusSummary, pyOrStr, hs]
  · cases r <;> by_cases hs : s = "" <;> simp [resultStatusSummary, pyOrStr, hs]
  · cases r <;> simp [resultStatusSummary, pyOrStr]

/-- Witness for the amended C5 at a concrete result and summary. -/
theorem resultStatusSummary_total_mapping_witness :
    (resultStatusSummary (some TestingFarmResult.passed)
      (some "All tests passed on fedora-35")).2 = "All tests passed on fedora-35" :=
  (resultStatusSummary_total_mapping TestingFarmResult.passed
    "All tests passed on fedora-35").2.2.2.2.1 (by decide)

/-! ## Claim about the comment parser -/

/-- Claim C7: the parser yields one command per line that, once trimmed,
starts with the token /packit followed by a command name; a comment with no
such line yields the empty list, and recognition is insensitive to
surrounding blank lines and leading or trailing spaces — checked on the
literal inputs of the specification and the test suite. -/
theorem get_packit_commands_characterization (comment : String) :
    ((get_packit_commands_from_comment comment).length =
      ((pyLines comment).filter (fun l => (packitLineCommand l).isSome)).length
    ∧ (get_packit_commands_from_comment comment = [] ↔
        (pyLines comment).filter (fun l => (packitLineCommand l).isSome) = []))
    ∧ get_packit_commands_from_comment "" = []
    ∧ get_packit_commands_from_comment "some unrelated" = []
    ∧ get_packit_commands_from_comment
        "comment with embedded /packit build not recognized\nunless /packit command is on line by itself" = []
    ∧ get_packit_commands_from_comment "/packit build" = [["build"]]
    ∧ get_packit_commands_from_comment " /packit build " = [["build"]]
    ∧ get_packit_commands_from_comment "asd\n/packit build\n" = [["build"]] := by
  refine ⟨⟨?_, ?_⟩, by decide, by decide, by decide, by decide, by decide, by decide⟩
  · exact length_filterMap_eq_length_filter packitLineCommand (pyLines comment)
  · show (pyLines comment).filterMap packitLineCommand = [] ↔ _
    rw [← List.length_eq_zero, ← List.length_eq_zero,
      length_filterMap_eq_length_filter packitLineCommand (pyLines comment)]

/-- Witness for C7 at a concrete comment. -/
theorem get_packit_commands_characterization_witness :
    get_packit_commands_from_comment "/packit build" = [["build"]] :=
  (get_packit_commands_characterization "/packit build").2.2.2.2.1

/-! ## Claims about EventData -/

/-- Claim C8: the event-type to upsert mapping of `EventData.db_trigger` is
the fixed table of the source: pull-request and pull-request-comment kinds
(including check reruns on a pull request) upsert a PullRequest row keyed by
the PR number, push kinds and commit check reruns a Branch row keyed by the
branch name, release kinds a Release row keyed by the tag name, and
issue-comment kinds an Issue row keyed by the issue id — every branch passing
the namespace, repo and project-URL natural key. -/
theorem dbTriggerResolve_fixed_table (d : EventData) (proj : GitProjectRef) :
    (optMem d.event_type pullRequestEventTypes = true →
      dbTriggerResolve d proj =
        some (.pullRequest d.pr_id proj.namespace_ proj.repo d.project_url))
    ∧ (optMem d.event_type pushEventTypes = true →
      dbTriggerResolve d proj =
        some (.gitBranch d.git_ref proj.namespace_ proj.repo d.project_url))
    ∧ (optMem d.event_type releaseEventTypes = true →
      dbTriggerResolve d proj =
        some (.projectRelease d.tag_name proj.namespace_ proj.repo d.project_url
          d.commit_sha))
    ∧ (optMem d.event_type issueCommentEventTypes = true →
      dbTriggerResolve d proj =
        some (.issue d.issue_id proj.namespace_ proj.repo d.project_url))
    ∧ (optMem d.event_type pullRequestEventTypes = false →
       optMem d.event_type pushEventTypes = false →
       optMem d.event_type releaseEventTypes = false →
       optMem d.event_type issueCommentEventTypes = false →
      dbTriggerResolve d proj = none) := by
  refine ⟨?_, ?_, ?_, ?_, ?_⟩
  · intro h
    simp [dbTriggerResolve, h]
  · intro h
    have hpr : optMem d.event_type pullRequestEventTypes = false := by
      cases he : d.event_type with
      | none => rfl
      | some v =>
        rw [he] at h
        have hv : v ∈ pushEventTypes := of_decide_eq_true h
        have hnot : v ∉ pullRequestEventTypes := by fin_cases hv <;> decide
        simp [optMem, hnot]
    simp [dbTriggerResolve, hpr, h]
  · intro h
    have hcase : optMem d.event_type pullRequestEventTypes = false
        ∧ optMem d.event_type pushEventTypes = false := by
      cases he : d.event_type with
      | none => exact ⟨rfl, rfl⟩
      | some v =>
        rw [he] at h
        have hv : v ∈ releaseEventTypes := of_decide_eq_true h
        have hnot : v ∉ pullRequestEventTypes ∧ v ∉ pushEventTypes := by
          fin_cases hv <;> exact ⟨by decide, by decide⟩
        simp [optMem, hnot.1, hnot.2]
    simp [dbTriggerResolve, hcase.1, hcase.2, h]
  · intro h
    have hcase : optMem d.event_type pullRequestEventTypes = false
        ∧ optMem d.event_type pushEventTypes = false
        ∧ optMem d.event_type releaseEventTypes = false := by
      cases he : d.event_type with
      | none => exact ⟨rfl, rfl, rfl⟩
      | some v =>
        rw [he] at h
        have hv : v ∈ issueCommentEventTypes := of_decide_eq_true h
        have hnot : v ∉ pullRequestEventTypes ∧ v ∉ pushEventTypes
            ∧ v ∉ releaseEventTypes := by
          fin_cases hv <;> exact ⟨by decide, by decide, by decide⟩
        simp [optMem, hnot.1, hnot.2.1, hnot.2.2]
    simp [dbTriggerResolve, hcase.1, hcase.2.1, hcase.2.2, h]
  · intro h1 h2 h3 h4
    simp [dbTriggerResolve, h1, h2, h3, h4]

/-- A push event envelope. -/
def pushEventData : EventData :=
  EventData.init (some "PushGitHubEvent") (some "user") (some 7)
    (some "https://github.com/packit/ogr") none (some "main") none
    (some "abcdef0") none none none none

/-- A resolved project handle. -/
def projExample : GitProjectRef := { namespace_ := "packit", repo := "ogr" }

/-- Witness for C8 at a concrete push event. -/
theorem dbTriggerResolve_fixed_table_witness :
    dbTriggerResolve pushEventData projExample =
      some (.gitBranch (some "main") "packit" "ogr"
        (some "https://github.com/packit/ogr")) :=
  (dbTriggerResolve_fixed_table pushEventData projExample).2.1 (by decide)

/-- An envelope with no project URL: its project resolver returns None. -/
def noUrlEventData : EventData :=
  EventData.init (some "PullRequestGithubEvent") (some "user") (some 1) none
    none none (some 9) (some "abcdef0") none none none none

/-- The service-config project lookup used in the examples. -/
def lookupExample : String → GitProjectRef :=
  fun _ => { namespace_ := "packit", repo := "ogr" }

/-- Claim C9 counterexample: when the resolver returns None (here: no project
URL), the None result is never cached, so a second read of the lazy property
invokes the resolver again — the resolver is not invoked at most once for the
lifetime of the object. -/
theorem projectRead_reinvokes_resolver :
    (noUrlEventData.projectRead lookupExample none).2.2 = 1
    ∧ (noUrlEventData.projectRead lookupExample
        (noUrlEventData.projectRead lookupExample none).2.1).2.2 = 1
    ∧ (noUrlEventData.projectRead lookupExample none).2.1 = none :=
  ⟨rfl, rfl, rfl⟩

/-- Claim C9 (amended): when the resolver yields a value (Python: a truthy
one), the lazy fields `project` and `db_trigger` are idempotently memoized —
computed once on first read, cached, and every later read returns the cached
value without re-invoking the resolver; when the resolver yields None, the
read returns None but caches nothing and the resolver runs again on every
read. -/
theorem lazy_fields_memoized_when_resolved (d : EventData)
    (lookup : String → GitProjectRef) (proj : GitProjectRef) :
    (∀ p, d.get_project lookup = some p →
      d.projectRead lookup none = (some p, some p, 1)
      ∧ ∀ c, d.projectRead lookup (some c) = (some c, some c, 0))
    ∧ (∀ u, dbTriggerResolve d proj = some u →
      d.dbTriggerRead proj none = (some u, some u, 1)
      ∧ ∀ c, d.dbTriggerRead proj (some c) = (some c, some c, 0))
    ∧ (d.get_project lookup = none →
      d.projectRead lookup none = (none, none, 1)) := by
  refine ⟨?_, ?_, ?_⟩
  · intro p hp
    exact ⟨by simp [EventData.projectRead, lazyRead, hp], fun c => rfl⟩
  · intro u hu
    exact ⟨by simp [EventData.dbTriggerRead, lazyRead, hu], fun c => rfl⟩
  · intro hp
    simp [EventData.projectRead, lazyRead, hp]

/-- An envelope with a project URL, for the memoization witness. -/
def urlEventData : EventData :=
  EventData.init (some "PullRequestGithubEvent") (some "user") (some 1)
    (some "https://github.com/packit/ogr") none none (some 9) (some "abcdef0")
    none none none none

/-- Witness for the amended C9: with a resolvable project the first read
computes and caches the value with exactly one resolver invocation. -/
theorem lazy_fields_memoized_when_resolved_witness :
    urlEventData.projectRead lookupExample none =
      (some { namespace_ := "packit", repo := "ogr" },
       some { namespace_ := "packit", repo := "ogr" }, 1) :=
  ((lazy_fields_memoized_when_resolved urlEventData lookupExample
    projExample).1 { namespace_ := "packit", repo := "ogr" } (by decide)).1

/-- An envelope whose accepted time is exactly the epoch. -/
def epochEventData : EventData :=
  EventData.init (some "PullRequestGithubEvent") (some "user") (some 1)
    (some "https://github.com/packit/ogr") none none (some 9) (some "abcdef0")
    none none (some 0) (some ["fedora-35-x86_64"])

/-- Claim C10 counterexample: an accepted time of whole-second precision
equal to the epoch serializes to the integer 0, which is falsy, so
deserialization drops it — the round trip does not preserve
`task_accepted_time` although the claim admits this input. -/
theorem from_get_dict_epoch_counterexample :
    epochEventData.task_accepted_time = some 0
    ∧ (EventData.from_event_dict epochEventData.get_dict).task_accepted_time =
        none :=
  ⟨rfl, rfl⟩

/-- Claim C10 (amended): for every EventData whose accepted time is None or a
whole-second instant with nonzero timestamp and whose stored target override
is None or a non-empty set, serializing with `get_dict` and re-reading with
`from_event_dict` reproduces all the listed fields, and the serialized
dictionary carries neither lazy attribute. -/
theorem from_event_dict_get_dict_roundtrip (e : EventData)
    (ht : e.task_accepted_time ≠ some 0)
    (hto : ∀ l, e.targets_override = some l → l.dedup = l ∧ l ≠ []) :
    (EventData.from_event_dict e.get_dict).event_type = e.event_type
    ∧ (EventData.from_event_dict e.get_dict).user_login = e.user_login
    ∧ (EventData.from_event_dict e.get_dict).trigger_id = e.trigger_id
    ∧ (EventData.from_event_dict e.get_dict).project_url = e.project_url
    ∧ (EventData.from_event_dict e.get_dict).tag_name = e.tag_name
    ∧ (EventData.from_event_dict e.get_dict).git_ref = e.git_ref
    ∧ (EventData.from_event_dict e.get_dict).pr_id = e.pr_id
    ∧ (EventData.from_event_dict e.get_dict).commit_sha = e.commit_sha
    ∧ (EventData.from_event_dict e.get_dict).identifier = e.identifier
    ∧ (EventData.from_event_dict e.get_dict).issue_id = e.issue_id
    ∧ (EventData.from_event_dict e.get_dict).task_accepted_time =
        e.task_accepted_time
    ∧ (EventData.from_event_dict e.get_dict).targets_override =
        e.targets_override
    ∧ e.get_dict.has_lazy_project = false
    ∧ e.get_dict.has_lazy_db_trigger = false := by
  refine ⟨rfl, rfl, rfl, rfl, rfl, rfl, rfl, rfl, rfl, rfl, ?_, ?_, rfl, rfl⟩
  · show (match e.task_accepted_time with
      | some ts => if ts = 0 then none else some ts
      | none => none) = e.task_accepted_time
    cases hts : e.task_accepted_time with
    | none => rfl
    | some ts =>
      have : ts ≠ 0 := by
        intro h
        exact ht (by rw [hts, h])
      simp [this]
  · show (match e.targets_override with
      | some l => if l.isEmpty then none else some (pySet l)
      | none => none) = e.targets_override
    cases hl : e.targets_override with
    | none => rfl
    | some l =>
      obtain ⟨hdedup, hne⟩ := hto l hl
      have hempty : l.isEmpty = false := by
        cases l with
        | nil => exact absurd rfl hne
        | cons a t => rfl
      simp [hempty, pySet, hdedup]

/-- Witness for the amended C10 at a concrete envelope. -/
theorem from_event_dict_get_dict_roundtrip_witness :
    (EventData.from_event_dict urlEventData.get_dict).pr_id = urlEventData.pr_id :=
  (from_event_dict_get_dict_roundtrip urlEventData (by decide)
    (by intro l hl; cases hl)).2.2.2.2.2.2.1

end PackitService
